import Mathlib

/-!
Verification of the message-copy pipeline of the `telegram-copier` bot.

Python strings are modelled as `List Char`; whole-string operations used by
the source (`str.strip`, `str.replace`, `str.lstrip`, prefix tests,
`str.isdigit`, `int(...)`) are given explicit executable models.  The
`re.search` call for invitation links is modelled as a leftmost-occurrence
scan for the two concrete alternatives of its pattern.

The copy loop of `MessageHandler.copy_messages` (`message_handler.py`) is a
sequential fold over the inclusive message-ID range, with the external world
(Telegram client, quota store, session store) supplied as a per-message
environment.  The personal-copy loop inlined in `main.py`'s `text_handler`
is modelled separately where a claim depends on it.
-/

namespace TelegramCopier

/-! ## Python string primitives -/
/-- `str.strip()`: remove leading and trailing whitespace. -/
def pyStrip (s : List Char) : List Char :=
  ((s.dropWhile Char.isWhitespace).reverse.dropWhile Char.isWhitespace).reverse

/-- `str.replace(pat, repl)`: replace every non-overlapping occurrence of
`pat`, scanning left to right (Python semantics; an empty pattern is never
used by the source, and is treated as no occurrence here). -/
def replaceAll (pat repl : List Char) (s : List Char) : List Char :=
  match s with
  | [] => []
  | c :: rest =>
    if pat.isPrefixOf (c :: rest) ∧ pat ≠ [] then
      repl ++ replaceAll pat repl (rest.drop (pat.length - 1))
    else
      c :: replaceAll pat repl rest
termination_by s.length
decreasing_by
  · simp only [List.length_drop, List.length_cons]
    omega
  · simp [List.length_cons]

/-- `str.isdigit()`: non-empty and every character a digit (ASCII digits;
the Unicode digits Python additionally accepts do not occur in any claim). -/
def pyIsDigit (s : List Char) : Bool :=
  !s.isEmpty && s.all Char.isDigit

/-- Characters matched by the `[A-Za-z0-9_-]` class of the invite-link
pattern in `clean_channel_input`. -/
def inviteClassChar (c : Char) : Bool :=
  c.isAlpha || c.isDigit || c = '_' || c = '-'

/-- One anchored attempt of the pattern
`t\.me/(?:\+|joinchat/)([A-Za-z0-9_-]+)` at the start of `s`; returns the
captured (greedy, non-empty) group on a match. -/
def inviteMatchAt (s : List Char) : Option (List Char) :=
  if ("t.me/+".toList).isPrefixOf s then
    let cap := (s.drop 6).takeWhile inviteClassChar
    if cap = [] then none else some cap
  else if ("t.me/joinchat/".toList).isPrefixOf s then
    let cap := (s.drop 14).takeWhile inviteClassChar
    if cap = [] then none else some cap
  else none

/-- `re.search`: leftmost match of the invite pattern anywhere in `s`. -/
def searchInvite : List Char → Option (List Char)
  | [] => none
  | c :: rest =>
    match inviteMatchAt (c :: rest) with
    | some cap => some cap
    | none => searchInvite rest

/-- The classification returned by `MessageHandler.clean_channel_input`. -/
inductive InputType where
  | invite
  | id
  | username
deriving DecidableEq, Repr

/-- `MessageHandler.clean_channel_input` (`message_handler.py:19-44`):
strip, detect invitation links, drop an `https://t.me/` or `@` prefix, and
normalize numeric IDs to the `-100`-prefixed supergroup convention. -/
def clean_channel_input (channel : List Char) : List Char × InputType :=
  let channel := pyStrip channel
  match searchInvite channel with
  | some cap => (cap, .invite)
  | none =>
    let channel :=
      if ("https://t.me/".toList).isPrefixOf channel then
        replaceAll ("https://t.me/".toList) [] channel
      else channel
    let channel := if channel.head? = some '@' then channel.drop 1 else channel
    if pyIsDigit (channel.dropWhile (· = '-')) then
      if ¬ ("-100".toList).isPrefixOf channel ∧ 3 < channel.length then
        ("-100".toList ++ channel.dropWhile (· = '-'), .id)
      else (channel, .id)
    else (channel, .username)

/-! ## Message-range parsing (`utils.py`) -/
/-- Value of a run of decimal digit characters, most significant first. -/
def digitsToNat (s : List Char) : Nat :=
  s.foldl (fun n c => 10 * n + (c.toNat - 48)) 0

/-- Python `int(...)` on a string: optional surrounding whitespace, an
optional single sign, then a non-empty run of digits.  (Underscore
separators and non-ASCII digits, which Python additionally accepts, do not
occur in any claim and are not modelled.) -/
def pyIntCore : List Char → Option Int
  | [] => none
  | c :: rest =>
    if c = '+' then
      if rest ≠ [] ∧ rest.all Char.isDigit then some (digitsToNat rest : Int)
      else none
    else if c = '-' then
      if rest ≠ [] ∧ rest.all Char.isDigit then some (-(digitsToNat rest : Int))
      else none
    else
      if (c :: rest).all Char.isDigit then some (digitsToNat (c :: rest) : Int)
      else none

def pyInt (s : List Char) : Option Int :=
  pyIntCore (pyStrip s)

/-- The tail of `parse_message_range` after the two `int(...)` conversions:
positivity check, swap of a reversed pair, success tuple (`utils.py:35-47`).
A `none` models the `ValueError` branch. -/
def rangeFromInts : Option Int → Option Int → Bool × Option Int × Option Int × String
  | some a, some b =>
    if a ≤ 0 ∨ b ≤ 0 then (false, none, none, "Message IDs must be positive")
    else if b < a then (true, some b, some a, "")
    else (true, some a, some b, "")
  | _, _ => (false, none, none, "Message IDs must be numbers")

/-- `parse_message_range` (`utils.py:23-51`): strip; require a `'-'`; split
at the first `'-'` (Python `split('-', 1)` always yields exactly two parts
when a `'-'` is present, so the `len(parts) != 2` guard never fires); parse
both parts as integers; require both positive; silently swap a reversed
pair; return `(True, start, end, "")`. -/
def parse_message_range (s : List Char) :
    Bool × Option Int × Option Int × String :=
  let t := pyStrip s
  if ¬ t.contains '-' then
    (false, none, none, "Please use format: start_id-end_id")
  else
    rangeFromInts (pyInt (t.takeWhile (· ≠ '-')))
      (pyInt ((t.dropWhile (· ≠ '-')).drop 1))

/-- The decimal digit character for `n < 10`. -/
def digitChar (n : Nat) : Char := Char.ofNat (48 + n)

/-- Decimal representation of a natural number, accumulator form. -/
def natToCharsAux (n : Nat) (acc : List Char) : List Char :=
  if h : n < 10 then digitChar n :: acc
  else natToCharsAux (n / 10) (digitChar (n % 10) :: acc)
termination_by n
decreasing_by exact Nat.div_lt_self (by omega) (by omega)

/-- `str(n)` for a natural number: its decimal digit characters. -/
def natToChars (n : Nat) : List Char := natToCharsAux n []

/-! ## Rolling speed average
(`progress_callback_dl`, `message_handler.py:256-261`, and
`progress_callback_ul`, `message_handler.py:319-323`).  Speeds are modelled
as rationals; every numeric instance appearing in a claim is exact. -/
/-- One sample arriving: `samples.append(x)` followed by `samples.pop(0)`
once the list holds more than 10 entries. -/
def pushSpeedSample (window : List ℚ) (x : ℚ) : List ℚ :=
  let w := window ++ [x]
  if 10 < w.length then w.drop 1 else w

/-- The sample window after feeding a whole run of samples, oldest first. -/
def speedWindow (samples : List ℚ) : List ℚ :=
  samples.foldl pushSpeedSample []

/-- `sum(samples) / len(samples) if samples else 0`. -/
def avgSpeed (window : List ℚ) : ℚ :=
  if window.length = 0 then 0 else window.sum / window.length

/-! ## The copy loop (`MessageHandler.copy_messages`, `message_handler.py:157-382`)

The loop is sequential: per message ID it polls the session's cancellation
flag, checks the free-tier quota against the *local* `stats` snapshot,
fetches the message, and performs the transfer step.  The external world
(Telegram client, quota store, session store) is supplied as a per-message
environment value describing what it does for that ID. -/
/-- What the external world does for one message ID of the range.
`incRaises` records whether `increment_message_count` raises
(`database.py:117-127` re-raises SQLite errors); such a raise is caught by
the loop's per-message `except` handler.  `get_user_stats` never raises
(`database.py:141-164` returns a default dict on error). -/
inductive MsgOutcome where
  /-- `get_messages` raised, returned nothing, or returned an empty
  message: `failed += 1`. -/
  | fetchFail
  /-- the message has media but `download_media` raised or returned a
  falsy value: `failed += 1`, no scratch file staged. -/
  | mediaDlFail
  /-- media staged to a scratch file, but the send raised, returned a
  falsy value, or the media kind has no handler entry: `failed += 1`; the
  scratch file stays on disk. -/
  | mediaSendFail
  /-- media staged and sent: `copied += 1`, stats re-read, quota increment
  for free users (which may raise); the scratch file stays on disk. -/
  | mediaSendOk (incRaises : Bool)
  /-- no media, text or caption present, `send_message` raised:
  `failed += 1`. -/
  | textSendFail
  /-- no media, text or caption present, sent: `copied += 1`, stats
  re-read, quota increment for free users (which may raise). -/
  | textSendOk (incRaises : Bool)
  /-- fetched, non-empty, no media and no text or caption: the loop body
  runs no counting branch at all. -/
  | blank
deriving DecidableEq

/-- Per-iteration external readings: the session's `is_cancelled` flag at
the top-of-iteration poll, and the message outcome. -/
structure IterInput where
  cancelled : Bool
  outcome : MsgOutcome
deriving DecidableEq

/-- Loop-local and store state tracked for one invocation. -/
structure CopyState where
  /-- counter of successfully transferred messages. -/
  copied : Nat
  /-- counter of failed messages. -/
  failed : Nat
  /-- the local `stats['message_count']` snapshot: read once before the
  loop (line 174), re-read after each successful send *before* the
  increment (lines 345, 356). -/
  statsCount : Nat
  /-- the persisted `message_count` in the user store. -/
  dbCount : Nat
  /-- number of `get_messages` calls performed. -/
  fetched : Nat
  /-- message IDs whose scratch file is currently on disk. -/
  staged : List Nat
deriving DecidableEq

/-- State at loop entry: zero counters, local snapshot equal to the
persisted count, nothing fetched, empty scratch directory. -/
def initState (c : Nat) : CopyState := ⟨0, 0, c, c, 0, []⟩

/-- Does this outcome's quota-store increment raise after the successful
send? -/
def incRaisesOf : MsgOutcome → Bool
  | .mediaSendOk r => r
  | .textSendOk r => r
  | _ => false

/-- A message is counted in both counters exactly when the user is free
and the post-send quota increment raises (the raise lands in the same
iteration's `except`, which adds `failed += 1` after `copied += 1`). -/
def doubleCounts (isFree : Bool) (o : MsgOutcome) : Bool :=
  isFree && incRaisesOf o

/-- The transfer step for message `m` (`message_handler.py:204-362`), run
after the cancellation and quota checks passed.  `isFree` is the tier
decided from the stats read before the loop (line 175); the user's tier
and the free limit are assumed stable for the run, so the re-reads at
lines 345-346 and 356-357 see the same tier.  A raising increment is
modelled as leaving the persisted count unchanged. -/
def stepMsg (isFree : Bool) (m : Nat) (o : MsgOutcome) (s : CopyState) :
    CopyState :=
  let s := { s with fetched := s.fetched + 1 }
  match o with
  | .fetchFail => { s with failed := s.failed + 1 }
  | .mediaDlFail => { s with failed := s.failed + 1 }
  | .mediaSendFail => { s with failed := s.failed + 1, staged := m :: s.staged }
  | .mediaSendOk incRaises =>
    let s := { s with copied := s.copied + 1, staged := m :: s.staged,
                      statsCount := s.dbCount }
    if isFree then
      if incRaises then { s with failed := s.failed + 1 }
      else { s with dbCount := s.dbCount + 1 }
    else s
  | .textSendFail => { s with failed := s.failed + 1 }
  | .textSendOk incRaises =>
    let s := { s with copied := s.copied + 1, statsCount := s.dbCount }
    if isFree then
      if incRaises then { s with failed := s.failed + 1 }
      else { s with dbCount := s.dbCount + 1 }
    else s
  | .blank => s

/-- Why the loop stopped. -/
inductive LoopExit where
  | ranOff
  | cancelledStop
  | quotaStop
deriving DecidableEq

/-- The loop over the remaining message IDs (`message_handler.py:177-362`):
cancellation poll, free-tier quota check against the local stats snapshot,
then the transfer step. -/
def loopGo (isFree : Bool) (limit : Nat) (env : Nat → IterInput) :
    List Nat → CopyState → CopyState × LoopExit
  | [], s => (s, .ranOff)
  | m :: rest, s =>
    if (env m).cancelled then (s, .cancelledStop)
    else if isFree = true ∧ limit ≤ s.statsCount then (s, .quotaStop)
    else loopGo isFree limit env rest (stepMsg isFree m (env m).outcome s)

/-- The inclusive ID range `range(start_msg_id, end_msg_id + 1)`. -/
def idRange (startId endId : Nat) : List Nat :=
  (List.range (endId + 1 - startId)).map (startId + ·)

/-- The value returned by `copy_messages` together with the observable
effects the claims refer to. -/
structure RunOutput where
  /-- first component of the returned pair. -/
  success : Bool
  /-- second component of the returned pair. -/
  msg : String
  final : CopyState
  /-- whether the quota-stop branch edited the status message with the
  VIP-upgrade keyboard (it does so only when a status message was
  attached). -/
  promptShown : Bool
  exit : LoopExit
deriving DecidableEq

/-- `MessageHandler.copy_messages` from the point the client is available:
run the loop over `[startId, endId]`, then return by stop reason
(cancellation: scratch cleanup and partial-count message, lines 180-189;
quota: upgrade prompt and `(True, "")` with no cleanup, lines 192-203;
completion: final sweep of the scratch directory and a success message,
lines 364-378).  `hasStatus` records whether the caller attached a
`status_message` (`main.py:200-202` does, `button_handler.py:476-478`
does not). -/
def copyMessages (isFree : Bool) (limit : Nat) (hasStatus : Bool)
    (initCount : Nat) (startId endId : Nat) (env : Nat → IterInput) :
    RunOutput :=
  let r := loopGo isFree limit env (idRange startId endId) (initState initCount)
  match r.2 with
  | .cancelledStop =>
    { success := true
      msg := "🛑 Copy operation cancelled by user. Copied " ++ toString r.1.copied
        ++ " messages before cancellation."
      final := { r.1 with staged := [] }
      promptShown := false
      exit := .cancelledStop }
  | .quotaStop =>
    { success := true, msg := "", final := r.1, promptShown := hasStatus,
      exit := .quotaStop }
  | .ranOff =>
    { success := true
      msg := "✅ Successfully copied " ++ toString r.1.copied ++ " messages."
      final := { r.1 with staged := [] }
      promptShown := false
      exit := .ranOff }

/-- Effect of one branch of the personal-copy loop inlined in
`text_handler` (`main.py`): counter deltas and whether the message's
scratch file is still on disk when the step completes. -/
structure MainStepEffect where
  copiedDelta : Nat
  failedDelta : Nat
  fileRemains : Bool
deriving DecidableEq

/-- The large-file media branch of the personal-copy loop
(`main.py:481-502`): the media is staged to a scratch file; after the send
attempt the file is removed on the success path (line 490) and in the
failure cleanup (lines 498-500).  When the send fails, the `except` adds
`failed += 1` yet control still falls through to line 529 where
`copied += 1` also runs (a quirk of this loop, not itself claimed). -/
def mainLargeMediaStep (sendOk : Bool) : MainStepEffect :=
  if sendOk then ⟨1, 0, false⟩ else ⟨1, 1, false⟩

/-- The no-media, no-text/caption branch of the personal-copy loop
(`main.py:537-540`): reported as an unsupported type, `failed += 1`. -/
def mainBlankStep : MainStepEffect := ⟨0, 1, false⟩

/-- Inductive invariant tying the counters to the quota stores for a free
user whose increments all succeed: the persisted count advances with every
success, while the local snapshot lags one success behind (it is re-read
just *before* each increment). -/
def quotaInv (c limit : Nat) (s : CopyState) : Prop :=
  s.dbCount = c + s.copied ∧
  ((s.copied = 0 ∧ s.statsCount = c) ∨
    (1 ≤ s.copied ∧ s.statsCount + 1 = c + s.copied ∧ s.statsCount ≤ limit))

/-! ### Character facts used to evaluate the resolver on digit strings -/
theorem digit_not_whitespace {c : Char} (h : c.isDigit = true) :
    c.isWhitespace = false := by
  rw [Char.isWhitespace]
  simp only [Bool.or_eq_false_iff, decide_eq_false_iff_not]
  refine ⟨⟨⟨?_, ?_⟩, ?_⟩, ?_⟩ <;> rintro rfl <;> simp [Char.isDigit] at h

theorem digit_ne {c : Char} (h : c.isDigit = true) {d : Char}
    (hd : d.isDigit = false) : c ≠ d := by
  rintro rfl
  rw [h] at hd
  exact absurd hd (by simp)

theorem dropWhile_eq_self_of_head_false {p : Char → Bool} {c : Char}
    {l : List Char} (h : p c = false) :
    (c :: l).dropWhile p = c :: l := by
  simp [List.dropWhile_cons, h]

theorem pyStrip_eq_self {s : List Char} (hne : s ≠ [])
    (h : ∀ c ∈ s, c.isWhitespace = false) : pyStrip s = s := by
  obtain ⟨c, l, rfl⟩ := List.exists_cons_of_ne_nil hne
  have h1 : (c :: l).dropWhile Char.isWhitespace = c :: l :=
    dropWhile_eq_self_of_head_false (h c (by simp))
  rw [pyStrip, h1]
  obtain ⟨d, m, hrev⟩ :
      ∃ d m, (c :: l).reverse = d :: m := by
    rcases hr : (c :: l).reverse with _ | ⟨d, m⟩
    · exact absurd (List.reverse_eq_nil_iff.mp hr) (List.cons_ne_nil c l)
    · exact ⟨d, m, rfl⟩
  have hd : d.isWhitespace = false := by
    have : d ∈ (c :: l).reverse := by rw [hrev]; simp
    exact h d (List.mem_reverse.mp this)
  rw [hrev, dropWhile_eq_self_of_head_false hd, ← hrev, List.reverse_reverse]

theorem pyStrip_digits {s : List Char} (hne : s ≠ [])
    (h : ∀ c ∈ s, c.isDigit = true) : pyStrip s = s :=
  pyStrip_eq_self hne fun c hc => digit_not_whitespace (h c hc)

theorem searchInvite_digits {s : List Char}
    (h : ∀ c ∈ s, c.isDigit = true) : searchInvite s = none := by
  induction s with
  | nil => rfl
  | cons c rest ih =>
    have hc : c ≠ 't' := digit_ne (h c (by simp)) (by decide)
    have hmatch : inviteMatchAt (c :: rest) = none := by
      rw [inviteMatchAt]
      have h1 : ("t.me/+".toList).isPrefixOf (c :: rest) = false := by
        simp only [List.isPrefixOf, Bool.and_eq_false_iff, show "t.me/+".toList
          = 't' :: ".me/+".toList from rfl, beq_eq_false_iff_ne]
        exact Or.inl (Ne.symm hc)
      have h2 : ("t.me/joinchat/".toList).isPrefixOf (c :: rest) = false := by
        simp only [List.isPrefixOf, Bool.and_eq_false_iff,
          show "t.me/joinchat/".toList = 't' :: ".me/joinchat/".toList from rfl,
          beq_eq_false_iff_ne]
        exact Or.inl (Ne.symm hc)
      rw [h1, h2]
      simp
    rw [searchInvite, hmatch]
    exact ih fun d hd => h d (List.mem_cons_of_mem c hd)

theorem isPrefixOf_cons_false {a c : Char} {pre l : List Char} (h : c ≠ a) :
    (a :: pre).isPrefixOf (c :: l) = false := by
  simp only [List.isPrefixOf, Bool.and_eq_false_iff, beq_eq_false_iff_ne]
  exact Or.inl (Ne.symm h)

theorem clean_channel_input_digits {s : List Char} (hne : s ≠ [])
    (hdig : ∀ c ∈ s, c.isDigit = true) (hlen : 3 < s.length) :
    clean_channel_input s = ("-100".toList ++ s, .id) := by
  obtain ⟨c, l, rfl⟩ := List.exists_cons_of_ne_nil hne
  have hc : c.isDigit = true := hdig c (by simp)
  have hstrip : pyStrip (c :: l) = c :: l := pyStrip_digits hne hdig
  have hsearch : searchInvite (c :: l) = none := searchInvite_digits hdig
  have hhttp : ("https://t.me/".toList).isPrefixOf (c :: l) = false := by
    rw [show "https://t.me/".toList = 'h' :: "ttps://t.me/".toList from rfl]
    exact isPrefixOf_cons_false (digit_ne hc (by decide))
  have hdash : ((c :: l).dropWhile (· = '-')) = c :: l :=
    dropWhile_eq_self_of_head_false
      (by simp [digit_ne hc (show ('-').isDigit = false by decide)])
  have hpre : ("-100".toList).isPrefixOf (c :: l) = false := by
    rw [show "-100".toList = '-' :: "100".toList from rfl]
    exact isPrefixOf_cons_false (digit_ne hc (by decide))
  rw [clean_channel_input, hstrip, hsearch]
  simp only [hhttp, Bool.false_eq_true, if_false, List.head?_cons]
  have hat : (some c = some '@') = False := by
    simp [digit_ne hc (show ('@').isDigit = false by decide)]
  simp only [hat, if_false, hdash]
  have hnum : pyIsDigit (c :: l) = true := by
    simp only [pyIsDigit, List.isEmpty_cons, Bool.not_false, Bool.true_and,
      List.all_eq_true]
    exact fun d hd => hdig d hd
  rw [hnum]
  have hcond : ¬ (("-100".toList).isPrefixOf (c :: l) = true) ∧ 3 < (c :: l).length :=
    ⟨by rw [hpre]; simp, hlen⟩
  simp only [if_pos trivial, if_pos hcond, hdash]

/-- C8: resolving the numeric channel ID string `"1234567890"` yields
`("-1001234567890", id)`, and, in general, `clean_channel_input` returns any
all-digit string of more than 3 characters with `"-100"` prepended and the
input type `id`. -/
theorem clean_channel_input_numeric_normalization :
    clean_channel_input ("1234567890".toList) = ("-1001234567890".toList, .id) ∧
    ∀ s : List Char, s ≠ [] → (∀ c ∈ s, c.isDigit = true) → 3 < s.length →
      clean_channel_input s = ("-100".toList ++ s, .id) := by
  refine ⟨by decide, fun s hne hdig hlen => clean_channel_input_digits hne hdig hlen⟩

/-- Witness for C8 at the concrete digit string `"98765"`. -/
theorem clean_channel_input_numeric_normalization_witness :
    clean_channel_input ("98765".toList) = ("-100".toList ++ "98765".toList, .id) :=
  clean_channel_input_numeric_normalization.2 ("98765".toList) (by decide)
    (by decide) (by decide)

theorem digitChar_toNat {k : Nat} (h : k < 10) :
    (digitChar k).toNat = 48 + k := by
  interval_cases k <;> rfl

theorem digitChar_isDigit {k : Nat} (h : k < 10) :
    (digitChar k).isDigit = true := by
  interval_cases k <;> decide

theorem natToCharsAux_eq_append (n : Nat) :
    ∀ acc, natToCharsAux n acc = natToChars n ++ acc := by
  induction n using Nat.strong_induction_on with
  | _ n ih =>
    intro acc
    by_cases h : n < 10
    · rw [natToCharsAux, dif_pos h, natToChars, natToCharsAux, dif_pos h]
      simp
    · have h10 : n / 10 < n := Nat.div_lt_self (by omega) (by omega)
      have lhs : natToCharsAux n acc
          = natToChars (n / 10) ++ (digitChar (n % 10) :: acc) := by
        rw [natToCharsAux, dif_neg h, ih _ h10]
      have rhs : natToChars n = natToChars (n / 10) ++ [digitChar (n % 10)] := by
        rw [natToChars, natToCharsAux, dif_neg h, ih _ h10]
      rw [lhs, rhs, List.append_assoc]
      simp

theorem natToChars_ne_nil (n : Nat) : natToChars n ≠ [] := by
  rw [natToChars]
  by_cases h : n < 10
  · rw [natToCharsAux, dif_pos h]
    simp
  · rw [natToCharsAux, dif_neg h, natToCharsAux_eq_append]
    simp

theorem natToChars_all_digits (n : Nat) :
    ∀ c ∈ natToChars n, c.isDigit = true := by
  induction n using Nat.strong_induction_on with
  | _ n ih =>
    intro c hc
    rw [natToChars] at hc
    by_cases h : n < 10
    · rw [natToCharsAux, dif_pos h] at hc
      rcases List.mem_singleton.mp hc with rfl
      exact digitChar_isDigit h
    · rw [natToCharsAux, dif_neg h, natToCharsAux_eq_append] at hc
      rcases List.mem_append.mp hc with h1 | h1
      · exact ih _ (Nat.div_lt_self (by omega) (by omega)) c h1
      · rcases List.mem_singleton.mp h1 with rfl
        exact digitChar_isDigit (Nat.mod_lt _ (by omega))

theorem digitsToNat_shift (l : List Char) :
    ∀ m : Nat, l.foldl (fun n c => 10 * n + (c.toNat - 48)) m
      = m * 10 ^ l.length + l.foldl (fun n c => 10 * n + (c.toNat - 48)) 0 := by
  induction l with
  | nil => intro m; simp
  | cons c l ih =>
    intro m
    rw [List.foldl_cons, List.foldl_cons, ih (10 * m + (c.toNat - 48)),
      ih (10 * 0 + (c.toNat - 48)), List.length_cons, pow_succ]
    ring

theorem digitsToNat_natToChars (n : Nat) : digitsToNat (natToChars n) = n := by
  induction n using Nat.strong_induction_on with
  | _ n ih =>
    by_cases h : n < 10
    · rw [natToChars, natToCharsAux, dif_pos h]
      rw [digitsToNat, List.foldl_cons, List.foldl_nil, digitChar_toNat h]
      omega
    · rw [natToChars, natToCharsAux, dif_neg h, natToCharsAux_eq_append,
        digitsToNat, List.foldl_append]
      have ihd := ih (n / 10) (Nat.div_lt_self (by omega) (by omega))
      rw [digitsToNat] at ihd
      rw [ihd, List.foldl_cons, List.foldl_nil,
        digitChar_toNat (Nat.mod_lt _ (show 0 < 10 by omega))]
      omega

theorem pyInt_natToChars (n : Nat) : pyInt (natToChars n) = some (n : Int) := by
  have hstrip := pyStrip_digits (natToChars_ne_nil n) (natToChars_all_digits n)
  obtain ⟨c, l, hcl⟩ := List.exists_cons_of_ne_nil (natToChars_ne_nil n)
  have hc : c.isDigit = true := natToChars_all_digits n c (by rw [hcl]; simp)
  rw [pyInt, hstrip, hcl, pyIntCore]
  rw [if_neg (digit_ne hc (by decide)), if_neg (digit_ne hc (by decide))]
  rw [if_pos]
  · rw [← hcl, digitsToNat_natToChars]
  · rw [← hcl, List.all_eq_true]
    exact natToChars_all_digits n

theorem rangeFromInts_none_left (q : Option Int) :
    rangeFromInts none q = (false, none, none, "Message IDs must be numbers") := by
  cases q <;> rfl

theorem rangeFromInts_none_right (p : Option Int) :
    rangeFromInts p none = (false, none, none, "Message IDs must be numbers") := by
  cases p <;> rfl

theorem parse_message_range_natPair (a b : Nat) :
    parse_message_range (natToChars a ++ '-' :: natToChars b)
      = rangeFromInts (some (a : Int)) (some (b : Int)) := by
  have hsA := natToChars_all_digits a
  have hsB := natToChars_all_digits b
  have hws : ∀ c ∈ natToChars a ++ '-' :: natToChars b, c.isWhitespace = false := by
    intro c hc
    rcases List.mem_append.mp hc with h | h
    · exact digit_not_whitespace (hsA c h)
    · rcases List.mem_cons.mp h with rfl | h
      · decide
      · exact digit_not_whitespace (hsB c h)
  have hne : natToChars a ++ '-' :: natToChars b ≠ [] := by simp
  have hstrip := pyStrip_eq_self hne hws
  have hcontains : (natToChars a ++ '-' :: natToChars b).contains '-' = true := by
    simp
  have hp : ∀ c ∈ natToChars a, (fun x => decide ¬(x = '-')) c = true := by
    intro c hc
    simp only [decide_eq_true_eq]
    exact digit_ne (hsA c hc) (by decide)
  have htake : (natToChars a ++ '-' :: natToChars b).takeWhile (· ≠ '-')
      = natToChars a := by
    rw [List.takeWhile_append_of_pos hp, List.takeWhile_cons]
    simp
  have hdrop : ((natToChars a ++ '-' :: natToChars b).dropWhile (· ≠ '-')).drop 1
      = natToChars b := by
    rw [List.dropWhile_append_of_pos hp, List.dropWhile_cons]
    simp
  rw [parse_message_range]
  simp only [hstrip]
  rw [if_neg (by simp [hcontains]), htake, hdrop, pyInt_natToChars,
    pyInt_natToChars]

/-- C10: for positive integers `a`, `b`, the range strings `"a-b"` and
`"b-a"` both parse to `(True, min a b, max a b, "")`; on any successful
parse, `start_id ≤ end_id`, so the caller's `start_id > end_id` rejection
branch in `handle_message_range_input` is unreachable. -/
theorem parse_message_range_swaps_reversed :
    (∀ a b : Nat, 0 < a → 0 < b →
      parse_message_range (natToChars a ++ '-' :: natToChars b)
        = (true, some (min (a : Int) (b : Int)), some (max (a : Int) (b : Int)), "") ∧
      parse_message_range (natToChars b ++ '-' :: natToChars a)
        = (true, some (min (a : Int) (b : Int)), some (max (a : Int) (b : Int)), "")) ∧
    (∀ (s : List Char) (x y : Int) (e : String),
      parse_message_range s = (true, some x, some y, e) → x ≤ y) := by
  have key : ∀ u v : Nat, 0 < u → 0 < v →
      rangeFromInts (some (u : Int)) (some (v : Int))
        = (true, some (min (u : Int) (v : Int)), some (max (u : Int) (v : Int)), "") := by
    intro u v hu hv
    rw [rangeFromInts, if_neg (by omega)]
    by_cases hlt : (v : Int) < (u : Int)
    · rw [if_pos hlt, min_eq_right (le_of_lt hlt), max_eq_left (le_of_lt hlt)]
    · rw [if_neg hlt, min_eq_left (not_lt.mp hlt), max_eq_right (not_lt.mp hlt)]
  constructor
  · intro a b ha hb
    refine ⟨by rw [parse_message_range_natPair, key a b ha hb], ?_⟩
    rw [parse_message_range_natPair, key b a hb ha, min_comm, max_comm]
  · intro s x y e h
    rw [parse_message_range] at h
    split at h
    · simp at h
    · rcases hp : pyInt ((pyStrip s).takeWhile (· ≠ '-')) with _ | a
      · rw [hp, rangeFromInts_none_left] at h
        simp at h
      · rcases hq : pyInt (((pyStrip s).dropWhile (· ≠ '-')).drop 1) with _ | b
        · rw [hp, hq, rangeFromInts_none_right] at h
          simp at h
        · rw [hp, hq, rangeFromInts] at h
          split_ifs at h with h1 h2
          · simp at h
          · simp only [Prod.mk.injEq, Option.some.injEq] at h
            omega
          · simp only [Prod.mk.injEq, Option.some.injEq] at h
            omega

/-- Witness for C10 at the reversed concrete pair `7-3`. -/
theorem parse_message_range_swaps_reversed_witness :
    parse_message_range (natToChars 7 ++ '-' :: natToChars 3)
      = (true, some (min (7 : Int) (3 : Int)), some (max (7 : Int) (3 : Int)), "") :=
  (parse_message_range_swaps_reversed.1 7 3 (by decide) (by decide)).1

theorem speedWindow_eq_suffix (samples : List ℚ) :
    speedWindow samples = samples.drop (samples.length - 10) := by
  induction samples using List.reverseRecOn with
  | nil => rfl
  | append_singleton l x ih =>
    rw [speedWindow, List.foldl_append, List.foldl_cons, List.foldl_nil,
      ← speedWindow, ih]
    by_cases h : l.length < 10
    · have h0 : l.length - 10 = 0 := by omega
      have h1 : (l.length + 1) - 10 = 0 := by omega
      rw [pushSpeedSample]
      simp only [h0, List.drop_zero, List.length_append, List.length_singleton, h1]
      rw [if_neg (by simp; omega)]
    · have hlen : (l.drop (l.length - 10)).length = 10 := by
        simp only [List.length_drop]
        omega
      rw [pushSpeedSample]
      simp only [List.length_append, List.length_singleton]
      rw [if_pos (by rw [hlen]; omega)]
      rw [List.drop_append_of_le_length (show 1 ≤ (l.drop (l.length - 10)).length by
            rw [hlen]; omega),
        List.drop_drop,
        List.drop_append_of_le_length (show l.length + 1 - 10 ≤ l.length by omega)]
      have harith : l.length - 10 + 1 = l.length + 1 - 10 := by omega
      rw [harith]

/-- C9: the rolling speed average is the arithmetic mean of the current
window; the window always holds exactly the most recent (at most 10)
samples, the oldest being dropped when an 11th arrives; for the sample run
`[10, 20, 30]` MB/s the reported average is `20.0` MB/s. -/
theorem speed_window_rolling_average :
    (∀ samples : List ℚ, speedWindow samples = samples.drop (samples.length - 10)) ∧
    avgSpeed (speedWindow [10, 20, 30]) = 20 := by
  refine ⟨speedWindow_eq_suffix, ?_⟩
  rw [speedWindow_eq_suffix]
  norm_num [avgSpeed]

theorem stepMsg_counters_sum (isFree : Bool) (m : Nat) (o : MsgOutcome)
    (s : CopyState) :
    (stepMsg isFree m o s).copied + (stepMsg isFree m o s).failed
      = s.copied + s.failed
        + (if o = .blank then 0 else if doubleCounts isFree o then 2 else 1) := by
  cases o with
  | mediaSendOk r =>
    cases isFree <;> cases r <;> simp [stepMsg, doubleCounts, incRaisesOf] <;> omega
  | textSendOk r =>
    cases isFree <;> cases r <;> simp [stepMsg, doubleCounts, incRaisesOf] <;> omega
  | fetchFail => simp [stepMsg, doubleCounts, incRaisesOf]; omega
  | mediaDlFail => simp [stepMsg, doubleCounts, incRaisesOf]; omega
  | mediaSendFail => simp [stepMsg, doubleCounts, incRaisesOf]; omega
  | textSendFail => simp [stepMsg, doubleCounts, incRaisesOf]; omega
  | blank => simp [stepMsg]

theorem stepMsg_fetched (isFree : Bool) (m : Nat) (o : MsgOutcome)
    (s : CopyState) : (stepMsg isFree m o s).fetched = s.fetched + 1 := by
  cases o with
  | mediaSendOk r => cases isFree <;> cases r <;> simp [stepMsg]
  | textSendOk r => cases isFree <;> cases r <;> simp [stepMsg]
  | fetchFail => simp [stepMsg]
  | mediaDlFail => simp [stepMsg]
  | mediaSendFail => simp [stepMsg]
  | textSendFail => simp [stepMsg]
  | blank => simp [stepMsg]

theorem loopGo_counters_le (isFree : Bool) (limit : Nat) (env : Nat → IterInput) :
    ∀ (ids : List Nat) (s : CopyState),
      (∀ m ∈ ids, doubleCounts isFree (env m).outcome = false) →
      (loopGo isFree limit env ids s).1.copied
          + (loopGo isFree limit env ids s).1.failed
        ≤ s.copied + s.failed + ids.length := by
  intro ids
  induction ids with
  | nil => intro s _; simp [loopGo]
  | cons m rest ih =>
    intro s h
    rw [loopGo]
    split
    · simp
    · split
      · simp
      · have hm : doubleCounts isFree (env m).outcome = false := h m (by simp)
        have hstep := stepMsg_counters_sum isFree m (env m).outcome s
        rw [hm] at hstep
        simp only [Bool.false_eq_true, if_false] at hstep
        have hrest := ih (stepMsg isFree m (env m).outcome s)
          (fun x hx => h x (List.mem_cons_of_mem m hx))
        simp only [List.length_cons]
        split at hstep <;> omega

theorem loopGo_append (isFree : Bool) (limit : Nat) (env : Nat → IterInput) :
    ∀ (l1 l2 : List Nat) (s : CopyState),
      (loopGo isFree limit env l1 s).2 = .ranOff →
      loopGo isFree limit env (l1 ++ l2) s
        = loopGo isFree limit env l2 (loopGo isFree limit env l1 s).1 := by
  intro l1
  induction l1 with
  | nil => intro l2 s _; simp [loopGo]
  | cons m rest ih =>
    intro l2 s h
    rw [loopGo] at h
    rw [List.cons_append, loopGo]
    split
    · rw [if_pos (by assumption)] at h
      simp at h
    · rw [if_neg (by assumption)] at h
      split
      · rw [if_pos (by assumption)] at h
        simp at h
      · rw [if_neg (by assumption)] at h
        rw [loopGo, if_neg (by assumption), if_neg (by assumption)]
        exact ih l2 _ h

theorem loopGo_ranOff_fetched (isFree : Bool) (limit : Nat)
    (env : Nat → IterInput) :
    ∀ (ids : List Nat) (s : CopyState),
      (loopGo isFree limit env ids s).2 = .ranOff →
      (loopGo isFree limit env ids s).1.fetched = s.fetched + ids.length := by
  intro ids
  induction ids with
  | nil => intro s _; simp [loopGo]
  | cons m rest ih =>
    intro s h
    rw [loopGo] at h ⊢
    split
    · rw [if_pos (by assumption)] at h
      simp at h
    · rw [if_neg (by assumption)] at h
      split
      · rw [if_pos (by assumption)] at h
        simp at h
      · rw [if_neg (by assumption)] at h
        rw [ih _ h, stepMsg_fetched, List.length_cons]
        omega

theorem idRange_length (startId endId : Nat) :
    (idRange startId endId).length = endId + 1 - startId := by
  simp [idRange]

theorem idRange_split (a k b : Nat) (h1 : a ≤ k + 1) (h2 : k ≤ b) :
    idRange a b = idRange a k ++ idRange (k + 1) b := by
  rw [idRange, idRange, idRange]
  have hsum : b + 1 - a = (k + 1 - a) + (b - k) := by omega
  rw [hsum, List.range_add, List.map_append, List.map_map]
  have hlen : b + 1 - (k + 1) = b - k := by omega
  rw [hlen]
  congr 1
  apply List.map_congr_left
  intro x _
  simp only [Function.comp_apply]
  omega

theorem idRange_cons (a b : Nat) (h : a ≤ b) :
    idRange a b = a :: idRange (a + 1) b := by
  rw [idRange, idRange]
  have hsum : b + 1 - a = (b + 1 - (a + 1)) + 1 := by omega
  rw [hsum, List.range_succ_eq_map, List.map_cons, List.map_map]
  congr 1
  apply List.map_congr_left
  intro x _
  simp only [Function.comp_apply]
  omega

theorem stepMsg_quotaInv {c limit : Nat} {s : CopyState} (m : Nat)
    (o : MsgOutcome) (hinc : incRaisesOf o = false)
    (hcheck : s.statsCount < limit) (hs : quotaInv c limit s) :
    quotaInv c limit (stepMsg true m o s) := by
  obtain ⟨hdb, hrest⟩ := hs
  cases o with
  | mediaSendOk r =>
    simp only [incRaisesOf] at hinc
    subst hinc
    rcases hrest with ⟨h0, hst⟩ | ⟨h1, hst, hle⟩ <;>
      simp [quotaInv, stepMsg] <;> omega
  | textSendOk r =>
    simp only [incRaisesOf] at hinc
    subst hinc
    rcases hrest with ⟨h0, hst⟩ | ⟨h1, hst, hle⟩ <;>
      simp [quotaInv, stepMsg] <;> omega
  | fetchFail =>
    rcases hrest with ⟨h0, hst⟩ | ⟨h1, hst, hle⟩ <;>
      simp [quotaInv, stepMsg] <;> omega
  | mediaDlFail =>
    rcases hrest with ⟨h0, hst⟩ | ⟨h1, hst, hle⟩ <;>
      simp [quotaInv, stepMsg] <;> omega
  | mediaSendFail =>
    rcases hrest with ⟨h0, hst⟩ | ⟨h1, hst, hle⟩ <;>
      simp [quotaInv, stepMsg] <;> omega
  | textSendFail =>
    rcases hrest with ⟨h0, hst⟩ | ⟨h1, hst, hle⟩ <;>
      simp [quotaInv, stepMsg] <;> omega
  | blank =>
    rcases hrest with ⟨h0, hst⟩ | ⟨h1, hst, hle⟩ <;>
      simp [quotaInv, stepMsg] <;> omega

theorem loopGo_quotaInv (limit : Nat) (env : Nat → IterInput) (c : Nat) :
    ∀ (ids : List Nat) (s : CopyState),
      (∀ m ∈ ids, incRaisesOf (env m).outcome = false) →
      quotaInv c limit s →
      quotaInv c limit (loopGo true limit env ids s).1 := by
  intro ids
  induction ids with
  | nil => intro s _ hs; simpa [loopGo] using hs
  | cons m rest ih =>
    intro s h hs
    rw [loopGo]
    split
    · exact hs
    · split
      · exact hs
      · rename_i hnq
        have hcheck : s.statsCount < limit := by
          by_contra hge
          exact hnq ⟨rfl, by omega⟩
        exact ih _ (fun x hx => h x (List.mem_cons_of_mem m hx))
          (stepMsg_quotaInv m (env m).outcome (h m (by simp)) hcheck hs)

theorem quotaInv_copied_le {c limit : Nat} {s : CopyState}
    (hs : quotaInv c limit s) : s.copied ≤ limit - c + 1 := by
  obtain ⟨_, hrest⟩ := hs
  rcases hrest with ⟨h0, _⟩ | ⟨_, hst, hle⟩ <;> omega

/-! ## The claims about the copy loop -/
/-- C1: refuted on the code.  A run over the one-message range `[1, 1]`
whose message is fetched, non-empty, and has no media and no text/caption
runs to the end of the range uninterrupted, yet finishes with
`copied + failed = 0 ≠ 1 = end_id - start_id + 1`: `copy_messages` has no
counting branch for such a message (the inline loop in `main.py` counts it
as a failure, matching the spec). -/
theorem copyMessages_blank_run_completion_gap :
    (copyMessages false 20 true 0 1 1 (fun _ => ⟨false, .blank⟩)).exit
      = .ranOff ∧
    (copyMessages false 20 true 0 1 1 (fun _ => ⟨false, .blank⟩)).final.copied
        + (copyMessages false 20 true 0 1 1 (fun _ => ⟨false, .blank⟩)).final.failed
      = 0 ∧
    1 - 1 + 1 = 1 := by
  decide

/-- C2 (counterexample): over the range `[1, 1]` (total = 1), a free
user's single message is sent successfully and the subsequent quota-store
increment raises; the per-message `except` then also counts the message as
failed, so `copied + failed = 2 > total` after that iteration — one
message ID contributed two units. -/
theorem copyMessages_increment_raise_double_count :
    (copyMessages true 1000 true 0 1 1
      (fun _ => ⟨false, .mediaSendOk true⟩)).final.copied = 1 ∧
    (copyMessages true 1000 true 0 1 1
      (fun _ => ⟨false, .mediaSendOk true⟩)).final.failed = 1 ∧
    ¬ ((copyMessages true 1000 true 0 1 1
          (fun _ => ⟨false, .mediaSendOk true⟩)).final.copied
        + (copyMessages true 1000 true 0 1 1
            (fun _ => ⟨false, .mediaSendOk true⟩)).final.failed
      ≤ 1 - 1 + 1) := by
  decide

/-- C2 (amended): after every loop iteration — i.e. for the state reached
on any prefix of the ID range — `copied + failed ≤ total` holds provided
no message's quota-store increment raises after its successful send; each
message then contributes at most one unit to `copied + failed`. -/
theorem copyMessages_counters_le_total (isFree : Bool)
    (limit initCount startId endId k : Nat) (env : Nat → IterInput)
    (hstore : ∀ m ∈ idRange startId endId,
      doubleCounts isFree (env m).outcome = false) :
    (loopGo isFree limit env ((idRange startId endId).take k)
        (initState initCount)).1.copied
      + (loopGo isFree limit env ((idRange startId endId).take k)
          (initState initCount)).1.failed
      ≤ endId + 1 - startId := by
  have hsub : ∀ m ∈ (idRange startId endId).take k,
      doubleCounts isFree (env m).outcome = false :=
    fun m hm => hstore m (List.take_subset k _ hm)
  have hle := loopGo_counters_le isFree limit env ((idRange startId endId).take k)
    (initState initCount) hsub
  have hlen : ((idRange startId endId).take k).length ≤ endId + 1 - startId := by
    rw [List.length_take]
    have := idRange_length startId endId
    omega
  rw [show (initState initCount).copied = 0 from rfl,
    show (initState initCount).failed = 0 from rfl] at hle
  omega

/-- Witness for the amended C2: two successful free-tier transfers over a
prefix of `[1, 3]`. -/
theorem copyMessages_counters_le_total_witness :
    (loopGo true 5 (fun _ => ⟨false, .mediaSendOk false⟩) ((idRange 1 3).take 2)
        (initState 0)).1.copied
      + (loopGo true 5 (fun _ => ⟨false, .mediaSendOk false⟩) ((idRange 1 3).take 2)
          (initState 0)).1.failed
      ≤ 3 + 1 - 1 :=
  copyMessages_counters_le_total true 5 0 1 3 2
    (fun _ => ⟨false, .mediaSendOk false⟩) (by decide)

/-- C3: a free-tier user with persisted count `c < limit` at loop start
obtains at most `(limit - c) + 1` successful transfers: the quota check
runs once per message against the local stats snapshot, which is re-read
after each success just *before* the increment and hence lags one success
behind the store.  Assumes the quota store honours its interface contract
(the per-message increments succeed). -/
theorem copyMessages_free_quota_overshoot_bound (limit : Nat)
    (hasStatus : Bool) (initCount startId endId : Nat) (env : Nat → IterInput)
    (hc : initCount < limit)
    (hstore : ∀ m ∈ idRange startId endId, incRaisesOf (env m).outcome = false) :
    (copyMessages true limit hasStatus initCount startId endId env).final.copied
      ≤ limit - initCount + 1 := by
  have hinv := loopGo_quotaInv limit env initCount (idRange startId endId)
    (initState initCount) hstore ⟨rfl, Or.inl ⟨rfl, rfl⟩⟩
  have hcop := quotaInv_copied_le hinv
  rcases hgo : loopGo true limit env (idRange startId endId) (initState initCount)
    with ⟨s, e⟩
  rw [hgo] at hcop
  cases e <;> simp [copyMessages, hgo] <;> exact hcop

/-- Witness for C3: limit 2, initial count 0, five all-successful
messages; the bound `(2 - 0) + 1 = 3` is attained. -/
theorem copyMessages_free_quota_overshoot_bound_witness :
    (copyMessages true 2 true 0 1 5
      (fun _ => ⟨false, .mediaSendOk false⟩)).final.copied ≤ 2 - 0 + 1 :=
  copyMessages_free_quota_overshoot_bound 2 true 0 1 5
    (fun _ => ⟨false, .mediaSendOk false⟩) (by decide) (by decide)

/-- C4: the transfer step of `copy_messages` leaves both counters
unchanged for a fetched, non-empty message with no media and no
text/caption — no branch of the loop body applies — while the inline
personal-copy loop in `main.py` counts the same message as an
unsupported-type failure (`failed += 1`), which is what the spec states. -/
theorem stepMsg_blank_counts_nothing :
    (∀ (isFree : Bool) (m : Nat) (s : CopyState),
      (stepMsg isFree m .blank s).copied = s.copied ∧
      (stepMsg isFree m .blank s).failed = s.failed) ∧
    mainBlankStep.failedDelta = 1 :=
  ⟨fun _ _ _ => ⟨rfl, rfl⟩, rfl⟩

/-- C5: when the first `k - startId + 1` messages complete (the loop
neither cancelled nor quota-stopped on them) and the poll of iteration
`k + 1` sees the cancellation flag, the run stops without fetching message
`k + 1`, sweeps the scratch directory, and returns success with the
partial-count message; under quota-store increments that do not raise the
counters satisfy `copied + failed ≤ k - startId + 1`. -/
theorem copyMessages_cancellation_partial (isFree : Bool)
    (limit initCount : Nat) (hasStatus : Bool) (startId k endId : Nat)
    (env : Nat → IterInput)
    (hk : startId ≤ k) (hend : k < endId)
    (hcanc : (env (k + 1)).cancelled = true)
    (hran : (loopGo isFree limit env (idRange startId k)
      (initState initCount)).2 = .ranOff)
    (hstore : ∀ m ∈ idRange startId k,
      doubleCounts isFree (env m).outcome = false) :
    (copyMessages isFree limit hasStatus initCount startId endId env).success
      = true ∧
    (copyMessages isFree limit hasStatus initCount startId endId env).msg
      = "🛑 Copy operation cancelled by user. Copied "
        ++ toString (loopGo isFree limit env (idRange startId k)
            (initState initCount)).1.copied
        ++ " messages before cancellation." ∧
    (copyMessages isFree limit hasStatus initCount startId endId env).final.staged
      = [] ∧
    (copyMessages isFree limit hasStatus initCount startId endId env).final.fetched
      = k + 1 - startId ∧
    (copyMessages isFree limit hasStatus initCount startId endId env).final.copied
        + (copyMessages isFree limit hasStatus initCount startId endId env).final.failed
      ≤ k - startId + 1 := by
  have hfull : loopGo isFree limit env (idRange startId endId) (initState initCount)
      = ((loopGo isFree limit env (idRange startId k) (initState initCount)).1,
          .cancelledStop) := by
    rw [idRange_split startId k endId (by omega) (by omega),
      loopGo_append isFree limit env _ _ _ hran,
      idRange_cons (k + 1) endId (by omega), loopGo, if_pos hcanc]
  refine ⟨by simp [copyMessages, hfull], by simp [copyMessages, hfull],
    by simp [copyMessages, hfull], ?_, ?_⟩
  · have hf := loopGo_ranOff_fetched isFree limit env (idRange startId k)
      (initState initCount) hran
    rw [idRange_length, show (initState initCount).fetched = 0 from rfl] at hf
    simp [copyMessages, hfull, hf]
  · have hle := loopGo_counters_le isFree limit env (idRange startId k)
      (initState initCount) hstore
    rw [idRange_length, show (initState initCount).copied = 0 from rfl,
      show (initState initCount).failed = 0 from rfl] at hle
    simp only [copyMessages, hfull]
    omega

/-- Witness for C5: cancellation flag raised from message 3 on; messages 1
and 2 complete, the run stops at the poll of message 3. -/
theorem copyMessages_cancellation_partial_witness :
    (copyMessages false 0 true 0 1 4
      (fun m => ⟨decide (3 ≤ m), .mediaSendOk false⟩)).success = true ∧
    (copyMessages false 0 true 0 1 4
        (fun m => ⟨decide (3 ≤ m), .mediaSendOk false⟩)).msg
      = "🛑 Copy operation cancelled by user. Copied "
        ++ toString (loopGo false 0 (fun m => ⟨decide (3 ≤ m), .mediaSendOk false⟩)
            (idRange 1 2) (initState 0)).1.copied
        ++ " messages before cancellation." ∧
    (copyMessages false 0 true 0 1 4
      (fun m => ⟨decide (3 ≤ m), .mediaSendOk false⟩)).final.staged = [] ∧
    (copyMessages false 0 true 0 1 4
      (fun m => ⟨decide (3 ≤ m), .mediaSendOk false⟩)).final.fetched = 2 + 1 - 1 ∧
    (copyMessages false 0 true 0 1 4
        (fun m => ⟨decide (3 ≤ m), .mediaSendOk false⟩)).final.copied
      + (copyMessages false 0 true 0 1 4
          (fun m => ⟨decide (3 ≤ m), .mediaSendOk false⟩)).final.failed
      ≤ 2 - 1 + 1 :=
  copyMessages_cancellation_partial false 0 0 true 1 2 4
    (fun m => ⟨decide (3 ≤ m), .mediaSendOk false⟩)
    (by decide) (by decide) (by decide) (by decide) (by decide)

/-- C6: a free-tier user whose persisted count has already reached the
limit when the loop starts: with a non-empty range and no pending
cancellation the very first quota check fires — nothing is fetched,
`copied = failed = 0`, the VIP-upgrade prompt goes to the attached status
message, and the run returns success (`(True, "")`). -/
theorem copyMessages_quota_exhausted_at_start (limit initCount : Nat)
    (hasStatus : Bool) (startId endId : Nat) (env : Nat → IterInput)
    (hfull : limit ≤ initCount) (hrange : startId ≤ endId)
    (hnc : (env startId).cancelled = false) :
    (copyMessages true limit hasStatus initCount startId endId env).success
      = true ∧
    (copyMessages true limit hasStatus initCount startId endId env).msg = "" ∧
    (copyMessages true limit hasStatus initCount startId endId env).exit
      = .quotaStop ∧
    (copyMessages true limit hasStatus initCount startId endId env).promptShown
      = hasStatus ∧
    (copyMessages true limit hasStatus initCount startId endId env).final.copied
      = 0 ∧
    (copyMessages true limit hasStatus initCount startId endId env).final.failed
      = 0 ∧
    (copyMessages true limit hasStatus initCount startId endId env).final.fetched
      = 0 := by
  have hgo : loopGo true limit env (idRange startId endId) (initState initCount)
      = (initState initCount, .quotaStop) := by
    rw [idRange_cons startId endId hrange, loopGo, if_neg (by rw [hnc]; simp),
      if_pos ⟨rfl, hfull⟩]
  simp only [copyMessages, hgo]
  simp [initState]

/-- Witness for C6: count 20 at limit 20 over the range `[1, 3]`. -/
theorem copyMessages_quota_exhausted_at_start_witness :
    (copyMessages true 20 true 20 1 3 (fun _ => ⟨false, .blank⟩)).success
      = true ∧
    (copyMessages true 20 true 20 1 3 (fun _ => ⟨false, .blank⟩)).msg = "" ∧
    (copyMessages true 20 true 20 1 3 (fun _ => ⟨false, .blank⟩)).exit
      = .quotaStop ∧
    (copyMessages true 20 true 20 1 3 (fun _ => ⟨false, .blank⟩)).promptShown
      = true ∧
    (copyMessages true 20 true 20 1 3 (fun _ => ⟨false, .blank⟩)).final.copied
      = 0 ∧
    (copyMessages true 20 true 20 1 3 (fun _ => ⟨false, .blank⟩)).final.failed
      = 0 ∧
    (copyMessages true 20 true 20 1 3 (fun _ => ⟨false, .blank⟩)).final.fetched
      = 0 :=
  copyMessages_quota_exhausted_at_start 20 20 true 1 3 (fun _ => ⟨false, .blank⟩)
    (by decide) (by decide) (by decide)

/-- C7 (counterexample): after the transfer step for message 1 completes
(media staged and sent successfully), the scratch file of message 1 is
still on disk — `copy_messages` deletes staged files only in the final
sweep or the cancellation cleanup, never immediately after the send. -/
theorem copyMessages_staged_file_persists :
    (loopGo false 20 (fun _ => ⟨false, .mediaSendOk false⟩) ((idRange 1 2).take 1)
      (initState 0)).1.staged = [1] := by
  decide

/-- C7 (amended): the inline personal-copy loop of `main.py` deletes the
large-file scratch file immediately after the send attempt (success or
failure); in `MessageHandler.copy_messages` staged files persist until the
final sweep at range completion or the cancellation cleanup, each of which
leaves the scratch directory empty (a quota stop returns without
sweeping). -/
theorem scratch_cleanup_at_job_end (isFree : Bool) (limit : Nat)
    (hasStatus : Bool) (initCount startId endId : Nat) (env : Nat → IterInput)
    (hexit : (copyMessages isFree limit hasStatus initCount startId endId env).exit
      ≠ .quotaStop) :
    (copyMessages isFree limit hasStatus initCount startId endId env).final.staged
      = [] ∧
    ∀ sendOk : Bool, (mainLargeMediaStep sendOk).fileRemains = false := by
  constructor
  · rcases hgo : loopGo isFree limit env (idRange startId endId)
      (initState initCount) with ⟨s, e⟩
    cases e <;> simp [copyMessages, hgo] at hexit ⊢
  · intro sendOk
    cases sendOk <;> rfl

/-- Witness for the amended C7: a completed one-message run ends with an
empty scratch directory. -/
theorem scratch_cleanup_at_job_end_witness :
    (copyMessages false 20 true 0 1 1
      (fun _ => ⟨false, .mediaSendOk false⟩)).final.staged = [] ∧
    ∀ sendOk : Bool, (mainLargeMediaStep sendOk).fileRemains = false :=
  scratch_cleanup_at_job_end false 20 true 0 1 1
    (fun _ => ⟨false, .mediaSendOk false⟩) (by decide)

end TelegramCopier

